import Mathlib

/-!
Shallow embedding of the Neo4j OGM layer of the Spiderweb API
(package neo: db.go, query.go, baseModel.go), for checking the
natural-language specification against the code.

Go runtime values that flow through the layer (property values, record
values, model fields) are embedded as the inductive GoVal; an entity
shape (the reflection view of a registered struct type) is a list of
GoField records; the model registry maps labels to struct names.  Go
functions that can return an error or abort with a runtime panic are
embedded as functions into MapOut: ok carries the result, err a
returned error value, crash a Go panic (for example a reflect.Value.Set
on a value whose type is not assignable to the field).
-/

/-- Outcome of a Go computation: a normal result, an error value
returned to the caller, or a runtime panic. -/
inductive MapOut (α : Type) where
  | ok (a : α)
  | err (msg : String)
  | crash (msg : String)
deriving Repr

/-- Sequencing of Go computations: errors and panics abort. -/
def MapOut.bind {α β : Type} : MapOut α → (α → MapOut β) → MapOut β
  | .ok a, f => f a
  | .err m, _ => .err m
  | .crash m, _ => .crash m

/-- Predicate: the outcome is a returned error value. -/
def MapOut.isErr {α : Type} : MapOut α → Bool
  | .err _ => true
  | _ => false

/-- Predicate: the outcome is a normal result. -/
def MapOut.isOk {α : Type} : MapOut α → Bool
  | .ok _ => true
  | _ => false

/-- Embedded Go runtime values: scalars, nil, Neo4j nodes
(element id, labels, property map), driver lists, pointers to mapped
model structs, and Go slices. -/
inductive GoVal where
  | str (s : String)
  | intV (n : Int)
  | boolV (b : Bool)
  | null
  | node (elementId : String) (labels : List String) (props : List (String × GoVal))
  | listV (items : List GoVal)
  | ptrModel (structName : String) (fields : List (String × GoVal))
  | sliceV (items : List GoVal)

/-- Reflection view of a Neo4j node (neo4j.Node): element id, label
set, property map. -/
structure NNode where
  elementId : String
  labels : List String
  props : List (String × GoVal)

/-- Predicate for the nil interface value. -/
def GoVal.isNull : GoVal → Bool
  | .null => true
  | _ => false

/-- Equality of scalar runtime values (the values relationship options
carry); non-scalars compare unequal. -/
def scalarEq : GoVal → GoVal → Bool
  | .str a, .str b => a == b
  | .intV a, .intV b => a == b
  | .boolV a, .boolV b => a == b
  | _, _ => false

/-- Type assertion value.(neo4j.Node): succeeds exactly on node
values. -/
def GoVal.asNode : GoVal → Option NNode
  | .node e l p => some ⟨e, l, p⟩
  | _ => none

/-- Reflection view of a struct field type, restricted to the kinds the
layer distinguishes: scalar kinds, pointer to a named struct, slice of
pointers to a named struct, and a named struct held directly. -/
inductive FTy where
  | strTy
  | int64Ty
  | boolTy
  | ptrTo (structName : String)
  | sliceOfPtr (structName : String)
  | structOf (structName : String)
deriving DecidableEq, Repr

/-- Reflection view of a struct field: name, the node tag (graph
property key), the rel tag (relationship type and direction), and the
field type. -/
structure GoField where
  name : String
  nodeTag : String
  relTag : String
  ty : FTy
deriving DecidableEq, Repr

/-- Shape environment: for every struct name, the field list reflection
reports for it (total, mirroring reflect where every type has its
fields). -/
def ShapeEnv : Type := String → List GoField

/-- Model registry (modelRegistry in db.go): label to registered struct
name, absent when the label was never registered. -/
def Registry : Type := String → Option String

/-- Model instance: field name to current field value. -/
def Model : Type := List (String × GoVal)

/-- Zero value reflect.Zero produces for a field type. -/
def zeroVal : FTy → GoVal
  | .strTy => .str ""
  | .int64Ty => .intV 0
  | .boolTy => .boolV false
  | .ptrTo _ => .null
  | .sliceOfPtr _ => .sliceV []
  | .structOf n => .ptrModel n []

/-- Fresh model new(T): every field of the shape at its zero value. -/
def zeroModel (shape : List GoField) : Model :=
  shape.map (fun f => (f.name, zeroVal f.ty))

/-- Assignability of a runtime value to a field type, as
reflect.Value.Set checks it before panicking. -/
def assignable : GoVal → FTy → Bool
  | .str _, .strTy => true
  | .intV _, .int64Ty => true
  | .boolV _, .boolTy => true
  | _, _ => false

/-- FieldByName followed by Set: replaces the binding of the named
field, a no-op when the name is absent (invalid Value). -/
def setField (m : Model) (name : String) (v : GoVal) : Model :=
  m.map (fun p => if p.1 == name then (p.1, v) else p)

/-- Lookup of a property key in a node property map. -/
def lookupProp (props : List (String × GoVal)) (key : String) : Option GoVal :=
  (props.find? (fun p => p.1 == key)).map (fun p => p.2)

/-- Lookup of a field value in a model instance. -/
def lookupField (m : Model) (name : String) : Option GoVal :=
  (m.find? (fun p => p.1 == name)).map (fun p => p.2)

/-- Panic message reflect.Value.Set raises on a type mismatch. -/
def setMismatchMsg : String := "reflect: Set using value of mismatched type"

/-- Body of the field loop of mapNodeToModel (db.go): the ID field
takes the element id (zero when empty), the Label field and untagged
fields are skipped, a tagged field takes the property value when
present (panicking when its runtime type is not assignable) and its
zero value when absent. -/
def mapNodeFieldStep (nd : NNode) (f : GoField) (m : Model) : MapOut Model :=
  if f.name == "ID" && f.nodeTag == "id" then
    if nd.elementId != "" then
      if assignable (.str nd.elementId) f.ty then
        .ok (setField m f.name (.str nd.elementId))
      else
        .crash setMismatchMsg
    else
      .ok (setField m f.name (zeroVal f.ty))
  else if f.name == "Label" then
    .ok m
  else if f.nodeTag == "" then
    .ok m
  else
    match lookupProp nd.props f.nodeTag with
    | some v =>
        if assignable v f.ty then
          .ok (setField m f.name v)
        else
          .crash setMismatchMsg
    | none => .ok (setField m f.name (zeroVal f.ty))

/-- Sequential loop over the fields of a shape, threading the model. -/
def mapFieldsM (step : GoField → Model → MapOut Model) : List GoField → Model → MapOut Model
  | [], m => .ok m
  | f :: rest, m => (step f m).bind (fun m1 => mapFieldsM step rest m1)

/-- Translation of mapNodeToModel (db.go 482-522): iterate the shape
fields, copying scalar properties onto the model. -/
def mapNodeToModel (shape : List GoField) (nd : NNode) (m : Model) : MapOut Model :=
  mapFieldsM (mapNodeFieldStep nd) shape m

/-- Translation of mapNodeToModelReflect (db.go 600-640); its body is
line for line the body of mapNodeToModel, differing only in taking the
model through interface rather than a type parameter. -/
def mapNodeToModelReflect (shape : List GoField) (nd : NNode) (m : Model) : MapOut Model :=
  mapFieldsM (mapNodeFieldStep nd) shape m

/-- Translation of resolveTypeFromLabels (db.go 567-574): the first
label of the list registered in the registry wins; an error when none
is registered. -/
def resolveTypeFromLabels (reg : Registry) (labels : List String) : MapOut String :=
  match labels.findSome? reg with
  | some t => .ok t
  | none => .err ("unknown label: " ++ String.intercalate " " labels)

example : mapNodeToModel
    [⟨"ID", "id", "", .strTy⟩, ⟨"Username", "username", "", .strTy⟩]
    ⟨"4:abc:1", ["User"], [("username", .str "alice")]⟩
    (zeroModel [⟨"ID", "id", "", .strTy⟩, ⟨"Username", "username", "", .strTy⟩])
    = .ok [("ID", .str "4:abc:1"), ("Username", .str "alice")] := by rfl

example : mapNodeToModel
    [⟨"Age", "age", "", .int64Ty⟩]
    ⟨"4:abc:1", ["User"], [("age", .str "young")]⟩
    (zeroModel [⟨"Age", "age", "", .int64Ty⟩])
    = .crash setMismatchMsg := by rfl

example : resolveTypeFromLabels
    (fun l => if l == "User" then some "User" else none) ["Ghost", "User"]
    = .ok "User" := by rfl

/-- Inner loop of mapRelatedNodesToModel (db.go 539-558) for one
relationship field: walk the related values in order, skip those that
are not nodes (failed type assertion with comma-ok), resolve each
node's labels in the registry (an unresolved label errors out), error
out with a type mismatch when the resolved shape is not the field's
expected element shape, otherwise map the node onto a fresh related
model and append it; no check against already appended children is
made.  The error mapNodeToModelReflect returns is ignored in the
source, so only a panic of the nested mapping aborts. -/
def buildRelatedSlice (env : ShapeEnv) (reg : Registry) (expectedName : String) : List GoVal → MapOut (List GoVal)
  | [] => .ok []
  | v :: rest =>
    match v.asNode with
    | none => buildRelatedSlice env reg expectedName rest
    | some nd =>
      match resolveTypeFromLabels reg nd.labels with
      | .err e => .err e
      | .crash e => .crash e
      | .ok relatedTypeName =>
        if relatedTypeName != expectedName then
          .err ("type mismatch: expected " ++ expectedName ++ ", got " ++ relatedTypeName)
        else
          match mapNodeToModelReflect (env relatedTypeName) nd (zeroModel (env relatedTypeName)) with
          | .crash e => .crash e
          | .ok rm =>
              (buildRelatedSlice env reg expectedName rest).bind
                (fun tail => .ok (.ptrModel relatedTypeName rm :: tail))
          | .err _ =>
              (buildRelatedSlice env reg expectedName rest).bind
                (fun tail => .ok (.ptrModel relatedTypeName (zeroModel (env relatedTypeName)) :: tail))

/-- Body of the field loop of mapRelatedNodesToModel (db.go 528-562):
fields without a rel tag are skipped, rel-tagged fields whose kind is
not Slice are silently left untouched, and a rel-tagged slice field is
assigned the freshly built slice of mapped related nodes. -/
def mapRelFieldStep (env : ShapeEnv) (reg : Registry) (relatedNodes : List GoVal) (f : GoField) (m : Model) : MapOut Model :=
  if f.relTag == "" then
    .ok m
  else
    match f.ty with
    | .sliceOfPtr expectedName =>
        (buildRelatedSlice env reg expectedName relatedNodes).bind
          (fun l => .ok (setField m f.name (.sliceV l)))
    | _ => .ok m

/-- Translation of mapRelatedNodesToModel (db.go 524-565). -/
def mapRelatedNodesToModel (env : ShapeEnv) (reg : Registry) (shape : List GoField) (relatedNodes : List GoVal) (m : Model) : MapOut Model :=
  mapFieldsM (mapRelFieldStep env reg relatedNodes) shape m

/-- Raw record: ordered tuple of named values returned per row. -/
def Record : Type := List (String × GoVal)

/-- Lookup of a named value in a record (neo4j.Record.Get with
comma-ok). -/
def recordGet (r : Record) (key : String) : Option GoVal :=
  (r.find? (fun p => p.1 == key)).map (fun p => p.2)

/-- Processing of one record in the loop of buildNodeTree
(db.go 455-477): a record without the n column is skipped; the n value
is asserted to be a node (panicking otherwise), mapped onto a fresh
model, then, when the relatedNodes column is present and not null, the
value is asserted to be a list (panicking otherwise) and the related
nodes are mapped onto the model. -/
def processRecord (env : ShapeEnv) (reg : Registry) (shape : List GoField) (rec : Record) : MapOut (Option Model) :=
  match recordGet rec "n" with
  | none => .ok none
  | some nv =>
    match nv.asNode with
    | none => .crash "interface conversion: interface is not neo4j.Node"
    | some nd =>
      match mapNodeToModel shape nd (zeroModel shape) with
      | .err e => .err e
      | .crash e => .crash e
      | .ok model =>
        match recordGet rec "relatedNodes" with
        | none => .ok (some model)
        | some .null => .ok (some model)
        | some (.listV items) =>
            match mapRelatedNodesToModel env reg shape items model with
            | .err e => .err e
            | .crash e => .crash e
            | .ok model1 => .ok (some model1)
        | some _ => .crash "interface conversion: interface is not a list"

/-- Translation of buildNodeTree (db.go 452-480): one model is appended
per record whose n column is present; no keying or deduplication by
element id takes place. -/
def buildNodeTree (env : ShapeEnv) (reg : Registry) (shape : List GoField) : List Record → MapOut (List Model)
  | [] => .ok []
  | rec :: rest =>
    match processRecord env reg shape rec with
    | .err e => .err e
    | .crash e => .crash e
    | .ok none => buildNodeTree env reg shape rest
    | .ok (some m) =>
        (buildNodeTree env reg shape rest).bind (fun l => .ok (m :: l))

/-- Result-shaping tail of executeSingle (query.go 92-102): build the
node tree from the collected records, fail when it is empty, otherwise
assign the first model. -/
def executeSingleFromRecords (env : ShapeEnv) (reg : Registry) (shape : List GoField) (records : List Record) : MapOut Model :=
  match buildNodeTree env reg shape records with
  | .err e => .err e
  | .crash e => .crash e
  | .ok ms =>
    match ms with
    | [] => .err "no nodes found"
    | m :: _ => .ok m

/-- Result-shaping tail of executeMultiple (query.go 142-155): build
the node tree from the collected records, fail when it is empty,
otherwise assign all models. -/
def executeMultipleFromRecords (env : ShapeEnv) (reg : Registry) (shape : List GoField) (records : List Record) : MapOut (List Model) :=
  match buildNodeTree env reg shape records with
  | .err e => .err e
  | .crash e => .crash e
  | .ok ms =>
    match ms with
    | [] => .err "no nodes found"
    | _ => .ok ms

/-- Reflection of neoModels.User (embedded base field first, as in the
source struct). -/
def userShape : List GoField :=
  [⟨"NeoBaseModel", "", "", .structOf "NeoBaseModel"⟩,
   ⟨"Username", "username", "", .strTy⟩,
   ⟨"UserID", "userID", "", .int64Ty⟩,
   ⟨"ID", "id", "", .strTy⟩,
   ⟨"Worlds", "", "OWNS,->", .sliceOfPtr "World"⟩]

/-- Reflection of neoModels.World. -/
def worldShape : List GoField :=
  [⟨"NeoBaseModel", "", "", .structOf "NeoBaseModel"⟩,
   ⟨"ID", "id", "", .strTy⟩,
   ⟨"Name", "name", "", .strTy⟩,
   ⟨"Type", "type", "", .strTy⟩,
   ⟨"Description", "description", "", .strTy⟩,
   ⟨"Continents", "", "HAS,->", .sliceOfPtr "Continent"⟩,
   ⟨"Oceans", "", "HAS,->", .sliceOfPtr "Ocean"⟩]

/-- Reflection of neoModels.Continent. -/
def continentShape : List GoField :=
  [⟨"NeoBaseModel", "", "", .structOf "NeoBaseModel"⟩,
   ⟨"ID", "id", "", .strTy⟩,
   ⟨"Name", "name", "", .strTy⟩,
   ⟨"Description", "description", "", .strTy⟩,
   ⟨"Type", "type", "", .strTy⟩,
   ⟨"Zones", "", "HAS,->", .sliceOfPtr "Zone"⟩]

/-- Reflection of neoModels.Ocean. -/
def oceanShape : List GoField :=
  [⟨"NeoBaseModel", "", "", .structOf "NeoBaseModel"⟩,
   ⟨"ID", "id", "", .strTy⟩,
   ⟨"Name", "name", "", .strTy⟩,
   ⟨"Description", "description", "", .strTy⟩]

/-- Reflection of neoModels.Zone. -/
def zoneShape : List GoField :=
  [⟨"NeoBaseModel", "", "", .structOf "NeoBaseModel"⟩,
   ⟨"ID", "id", "", .strTy⟩,
   ⟨"Name", "name", "", .strTy⟩,
   ⟨"Type", "type", "", .strTy⟩,
   ⟨"Description", "description", "", .strTy⟩,
   ⟨"Locations", "", "HAS,->", .sliceOfPtr "Location"⟩,
   ⟨"Cities", "", "HAS,->", .sliceOfPtr "City"⟩,
   ⟨"Biome", "biome", "", .strTy⟩]

/-- Reflection of neoModels.Location. -/
def locationShape : List GoField :=
  [⟨"NeoBaseModel", "", "", .structOf "NeoBaseModel"⟩,
   ⟨"ID", "id", "", .strTy⟩,
   ⟨"Name", "name", "", .strTy⟩,
   ⟨"Type", "type", "", .strTy⟩,
   ⟨"Description", "description", "", .strTy⟩]

/-- Reflection of neoModels.City. -/
def cityShape : List GoField :=
  [⟨"NeoBaseModel", "", "", .structOf "NeoBaseModel"⟩,
   ⟨"ID", "id", "", .strTy⟩,
   ⟨"Name", "name", "", .strTy⟩,
   ⟨"Type", "type", "", .strTy⟩,
   ⟨"Description", "description", "", .strTy⟩,
   ⟨"Capital", "capital", "", .boolTy⟩]

/-- Shape environment of the application's entity types. -/
def appEnv : ShapeEnv := fun name =>
  if name == "User" then userShape
  else if name == "World" then worldShape
  else if name == "Continent" then continentShape
  else if name == "Ocean" then oceanShape
  else if name == "Zone" then zoneShape
  else if name == "Location" then locationShape
  else if name == "City" then cityShape
  else []

/-- Registry as populated by the RegisterModel calls of cmd/app/main.go. -/
def appRegistry : Registry := fun label =>
  if label == "User" then some "User"
  else if label == "World" then some "World"
  else if label == "Ocean" then some "Ocean"
  else if label == "Continent" then some "Continent"
  else if label == "Zone" then some "Zone"
  else if label == "Location" then some "Location"
  else if label == "City" then some "City"
  else none

/-- Splitting of a character list at commas, mirroring strings.Split
with a comma separator. -/
def splitComma : List Char → List (List Char)
  | [] => [[]]
  | c :: rest =>
    let r := splitComma rest
    if c == ',' then [] :: r
    else
      match r with
      | [] => [[c]]
      | h :: t => (c :: h) :: t

/-- Splitting of a rel tag into relationship type and direction
(query.go 200-205); tags without exactly one comma are skipped. -/
def parseRelTag (relTag : String) : Option (String × String) :=
  match (splitComma relTag.data).map (fun cs => String.mk cs) with
  | [relType, relDirection] => some (relType, relDirection)
  | _ => none

/-- Label of the node a relationship field points at
(query.go 207-214): element name for a pointer, element element name
for a slice of pointers, the type's own name otherwise. -/
def relatedNodeLabel (f : GoField) : String :=
  match f.ty with
  | .ptrTo n => n
  | .sliceOfPtr n => n
  | .structOf n => n
  | .strTy => "string"
  | .int64Ty => "int64"
  | .boolTy => "bool"

/-- Depth normalization at the entry of buildRelationships
(query.go 188-190): zero becomes minus one, so zero means unbounded. -/
def normDepth (depth : Int) : Int :=
  if depth == 0 then -1 else depth

/-- Traversal clause emitted for one relationship field
(query.go 216). -/
def relPath (relType relDirection label : String) : String :=
  "(n)-[:" ++ relType ++ "]" ++ relDirection ++ "(r:" ++ label ++ ")"

/-- Field loop of buildRelationships (query.go 193-229), parameterized
by the recursive descent into a target shape: fields without a
parseable rel tag are skipped; each remaining field contributes its
traversal clause, followed, when the remaining depth is not one and
the field's kind is struct, pointer to struct, or slice of pointers to
struct, by the clauses of the target shape at depth minus one
(normalized at the entry of the recursive call). -/
def relLoop (descend : String → Int → Option (List String)) : List GoField → Int → Option (List String)
  | [], _ => some []
  | f :: rest, d =>
    if f.relTag == "" then relLoop descend rest d
    else
      match parseRelTag f.relTag with
      | none => relLoop descend rest d
      | some (relType, relDirection) =>
        let path := relPath relType relDirection (relatedNodeLabel f)
        let nested : Option (List String) :=
          if d != 1 then
            match f.ty with
            | .structOf nm => descend nm (normDepth (d - 1))
            | .ptrTo nm => descend nm (normDepth (d - 1))
            | .sliceOfPtr nm => descend nm (normDepth (d - 1))
            | _ => some []
          else some []
        match nested, relLoop descend rest d with
        | some ns, some rs => some (path :: ns ++ rs)
        | _, _ => none

/-- Fueled translation of the recursion of buildRelationships
(query.go 187-232) on an already normalized depth: none means the
recursion did not finish within the given fuel (the Go code has no
fuel and simply does not terminate in that case). -/
def buildRelsFrom (env : ShapeEnv) : Nat → List GoField → Int → Option (List String)
  | 0, fields, d => relLoop (fun _ _ => none) fields d
  | fuel + 1, fields, d => relLoop (fun nm d1 => buildRelsFrom env fuel (env nm) d1) fields d

/-- Translation of buildRelationships (query.go 187-232): normalize
the requested depth, then walk the relationship fields. -/
def buildRelationships (env : ShapeEnv) (fuel : Nat) (fields : List GoField) (depth : Int) : Option (List String) :=
  buildRelsFrom env fuel fields (normDepth depth)

/-- Clause one relationship field contributes at its own level, when
its rel tag parses. -/
def clauseOf (f : GoField) : Option String :=
  if f.relTag == "" then none
  else
    match parseRelTag f.relTag with
    | none => none
    | some (relType, relDirection) =>
        some (relPath relType relDirection (relatedNodeLabel f))

/-- Clauses of the relationship fields declared directly on a shape,
with no descent anywhere. -/
def rootLevelClauses (fields : List GoField) : List String :=
  fields.filterMap clauseOf

/-- Modelled from the spec (depth zero means unbounded expansion): the
walk emits, for every relationship-tagged field at every level
reachable through the shape graph, its traversal clause followed by
the full expansion of the target shape, with no depth bound; fueled
the same way as the code. -/
def specFullExpansion (env : ShapeEnv) : Nat → List GoField → Option (List String)
  | 0, fields => relLoop (fun _ _ => none) fields (-1)
  | fuel + 1, fields => relLoop (fun nm _ => specFullExpansion env fuel (env nm)) fields (-1)

/-- Translation of the query assembly of buildQuery (query.go 163-184)
after the relationship walk: the root match (by property, or by
element id when the field is elementID), one OPTIONAL MATCH per
traversal clause, a LIMIT embedded textually when positive, the final
RETURN, and the single named parameter. -/
def buildQueryWith (label field : String) (value : GoVal) (rels : List String) (limit : Int) : String × List (String × GoVal) :=
  let base :=
    if field == "elementID" then
      "MATCH (n:" ++ label ++ ") WHERE elementId(n) = $" ++ field
    else
      "MATCH (n:" ++ label ++ " \x7b" ++ field ++ ": $" ++ field ++ "\x7d)"
  let q1 := rels.foldl (fun acc rel => acc ++ " OPTIONAL MATCH " ++ rel) base
  let q2 := if limit > 0 then q1 ++ " LIMIT " ++ toString limit else q1
  (q2 ++ " RETURN n, collect(r) as relatedNodes", [(field, value)])

/-- Translation of buildQuery (query.go 158-185): walk the
relationship fields of the root shape, then assemble the query text
and parameters. -/
def buildQuery (env : ShapeEnv) (label field : String) (value : GoVal) (shape : List GoField) (depth limit : Int) (fuel : Nat) : Option (String × List (String × GoVal)) :=
  (buildRelationships env fuel shape depth).map
    (fun rels => buildQueryWith label field value rels limit)

example : buildRelationships appEnv 5 userShape 1
    = some ["(n)-[:OWNS]->(r:World)"] := by rfl

example : buildRelationships appEnv 5 userShape 2
    = some ["(n)-[:OWNS]->(r:World)", "(n)-[:HAS]->(r:Continent)",
            "(n)-[:HAS]->(r:Ocean)"] := by rfl

example : buildRelationships appEnv 9 userShape 0
    = some ["(n)-[:OWNS]->(r:World)", "(n)-[:HAS]->(r:Continent)",
            "(n)-[:HAS]->(r:Zone)", "(n)-[:HAS]->(r:Location)",
            "(n)-[:HAS]->(r:City)", "(n)-[:HAS]->(r:Ocean)"] := by rfl

/-- Relationship options passed to Create and Update
(baseModel.go 147-153); a null value plays the nil interface. -/
structure CreateOptions where
  field : String
  value : GoVal
  label : String
  rel : String
  relDirection : String

/-- Options with every member at its zero value. -/
def noRelOptions : CreateOptions := ⟨"", .null, "", "", ""⟩

/-- Removal of a trailing occurrence of a suffix, mirroring
strings.TrimSuffix. -/
def trimSuffixStr (s suffixStr : String) : String :=
  if suffixStr.data.isSuffixOf s.data then
    String.mk (s.data.take (s.data.length - suffixStr.data.length))
  else s

/-- Translation of buildUpdateQuery (baseModel.go 525-570): match the
node of the entity's label whose element id equals the value of the
entity's ID field, set every node-tagged field except the id, trim the
trailing separator, and optionally merge a related node with a
relationship clause.  Parameters are listed in the order the source
inserts them. -/
def buildUpdateQuery (label : String) (shape : List GoField) (model : Model) (options : CreateOptions) : String × List (String × GoVal) :=
  let idVal := (lookupField model "ID").getD .null
  let setPairs := shape.filterMap (fun f =>
    if f.nodeTag == "" then none
    else if f.nodeTag == "id" then none
    else some (f.nodeTag, (lookupField model f.name).getD .null))
  let setText := setPairs.foldl
    (fun acc p => acc ++ "n." ++ p.1 ++ " = $" ++ p.1 ++ ", ") ""
  let q0 := trimSuffixStr
    ("MATCH (n:" ++ label ++ " WHERE elementId(n) = $value) " ++ "SET " ++ setText)
    ", "
  let relClause :=
    if options.field != "" && !options.value.isNull && options.label != "" then
      " MERGE (r:" ++ options.label ++ " \x7b" ++ options.field ++ ": $relatedValue\x7d)" ++
      (if options.relDirection == "->" then " CREATE (n)-[:" ++ options.rel ++ "]->(r)"
       else if options.relDirection == "<-" then " CREATE (n)<-[:" ++ options.rel ++ "]-(r)"
       else "")
    else ""
  let relParams :=
    if options.field != "" && !options.value.isNull && options.label != "" then
      [("relatedValue", options.value)]
    else []
  (q0 ++ relClause, ("value", idVal) :: setPairs ++ relParams)

/-- Match predicate of the WHERE elementId(n) = $value clause: the
engine compares the node's element id with the parameter, which only
matches when the parameter is that string. -/
def nodeMatchesId (n : NNode) (v : GoVal) : Bool :=
  match v with
  | .str s => n.elementId == s
  | _ => false

/-- Insertion or replacement of one property by a SET clause. -/
def setProp (props : List (String × GoVal)) (key : String) (v : GoVal) : List (String × GoVal) :=
  if props.any (fun p => p.1 == key) then
    props.map (fun p => if p.1 == key then (p.1, v) else p)
  else props ++ [(key, v)]

/-- Application of all SET pairs to one node's properties. -/
def applySets (sets : List (String × GoVal)) (props : List (String × GoVal)) : List (String × GoVal) :=
  sets.foldl (fun ps kv => setProp ps kv.1 kv.2) props

/-- Modelled from the spec (upstream collaborator of section 6, the
graph engine executing a parameterized statement): running the
MATCH-by-element-id plus SET statement rewrites the properties of
every node whose element id equals the parameter and reports how many
nodes matched; matching zero nodes is a successful execution with zero
rows affected, not an engine error. -/
def runUpdateTx (g : List NNode) (idVal : GoVal) (sets : List (String × GoVal)) : List NNode × Nat :=
  (g.map (fun n =>
      if nodeMatchesId n idVal then ⟨n.elementId, n.labels, applySets sets n.props⟩ else n),
   (g.filter (fun n => nodeMatchesId n idVal)).length)

/-- Modelled from the spec: the MERGE of a related node keeps the graph
unchanged when a node with the label and property already exists and
adds one otherwise (relationship edges are outside this node-level
graph model). -/
def mergeRelated (g : List NNode) (label field : String) (v : GoVal) : List NNode :=
  if g.any (fun n =>
      n.labels.contains label &&
      (match lookupProp n.props field with
       | some w => scalarEq w v
       | none => false)) then g
  else g ++ [⟨"", [label], [(field, v)]⟩]

/-- Translation of Update (baseModel.go 503-523) over the node-level
graph model: build the update statement, run it, and return only the
run error; the summary produced by Consume is discarded, so the number
of rows affected is never inspected and a match of zero nodes returns
success. -/
def UpdateOp (g : List NNode) (label : String) (shape : List GoField) (model : Model) (options : CreateOptions) : MapOut (List NNode) :=
  let qp := buildUpdateQuery label shape model options
  let idVal := (lookupField model "ID").getD .null
  let sets := qp.2.filter (fun p => p.1 != "value" && p.1 != "relatedValue")
  let gAfterSet := (runUpdateTx g idVal sets).1
  let gFinal :=
    if options.field != "" && !options.value.isNull && options.label != "" then
      mergeRelated gAfterSet options.label options.field options.value
    else gAfterSet
  .ok gFinal

example : (buildUpdateQuery "User" userShape
    [("Username", .str "alice"), ("UserID", .intV 7), ("ID", .str "4:x:1")]
    noRelOptions).1
    = "MATCH (n:User WHERE elementId(n) = $value) SET n.username = $username, n.userID = $userID" := by rfl

/-- Length of the model list an outcome carries, when it carries one. -/
def mapOutListLength {α : Type} : MapOut (List α) → Option Nat
  | .ok l => some l.length
  | _ => none

/-- Length of the slice held by a named field of the model an outcome
carries. -/
def fieldSliceLength (out : MapOut Model) (name : String) : Option Nat :=
  match out with
  | .ok m =>
    match lookupField m name with
    | some (.sliceV l) => some l.length
    | _ => none
  | _ => none

/-- Element ids of the node values sitting directly in the columns of a
record list. -/
def topNodeIds (recs : List Record) : List String :=
  recs.flatMap (fun r => r.filterMap (fun p => (GoVal.asNode p.2).map NNode.elementId))

/-- Element ids of the node values of a related-node list. -/
def nodeIdsOf (vs : List GoVal) : List String :=
  vs.filterMap (fun v => (GoVal.asNode v).map NNode.elementId)

/-- Name of the struct a relationship field walks into, when its kind
admits a descent. -/
def relTarget : FTy → Option String
  | .structOf n => some n
  | .ptrTo n => some n
  | .sliceOfPtr n => some n
  | _ => none

/-- Rank certificate of acyclicity of the shape graph reachable through
relationship-tagged fields: every descent strictly lowers the rank. -/
def RankBound (env : ShapeEnv) (rank : String → Nat) : Prop :=
  ∀ nm f, f ∈ env nm → f.relTag ≠ "" → ∀ tn, relTarget f.ty = some tn → rank tn < rank nm

/-- Self-referential shape: a Person whose Friends are Persons. -/
def selfRefEnv : ShapeEnv := fun name =>
  if name == "Person" then [⟨"Friends", "", "FRIEND,->", .sliceOfPtr "Person"⟩]
  else []

/-- Mutually referential shapes: an A holding Bs and a B holding As. -/
def mutualEnv : ShapeEnv := fun name =>
  if name == "A" then [⟨"Bs", "", "LINKS,->", .sliceOfPtr "B"⟩]
  else if name == "B" then [⟨"As", "", "LINKS,->", .sliceOfPtr "A"⟩]
  else []

/-- Record of user alice, as the composed single-root query returns it
(the n column and an empty collected related list). -/
def aliceRecord : Record :=
  [("n", .node "4:u:1" ["User"] [("username", .str "alice"), ("userID", .intV 7)])]

/-- Second record carrying the very same node value as aliceRecord. -/
def aliceRecordAgain : Record :=
  [("n", .node "4:u:1" ["User"] [("username", .str "alice"), ("userID", .intV 7)])]

/-- Record of a different user. -/
def bobRecord : Record :=
  [("n", .node "4:u:2" ["User"] [("username", .str "bob"), ("userID", .intV 8)])]

/-- Model buildNodeTree produces from aliceRecord. -/
def aliceModel : Model :=
  [("NeoBaseModel", .ptrModel "NeoBaseModel" []),
   ("Username", .str "alice"),
   ("UserID", .intV 7),
   ("ID", .str "4:u:1"),
   ("Worlds", .sliceV [])]

/-- World node appearing as a related node. -/
def oziaNode : GoVal :=
  .node "4:w:9" ["World"]
    [("id", .str "w9"), ("name", .str "Ozia"), ("type", .str "plane"),
     ("description", .str "old")]

/-- Continent node appearing as a related node. -/
def contNode : GoVal :=
  .node "4:c:3" ["Continent"] [("id", .str "c3"), ("name", .str "Northia")]

/-- Ocean node appearing as a related node. -/
def oceanNode : GoVal :=
  .node "4:o:4" ["Ocean"] [("id", .str "o4"), ("name", .str "Blue")]

/-- City node whose capital property holds a string although the
Capital field is a bool. -/
def badCityNode : NNode :=
  ⟨"4:t:5", ["City"], [("name", .str "Spire"), ("capital", .str "yes")]⟩

/-- Fields mapRelatedNodesToModel actually rewrites: rel-tagged and of
slice kind. -/
def relActive (f : GoField) : Bool :=
  (f.relTag != "") &&
  (match f.ty with
   | .sliceOfPtr _ => true
   | _ => false)

/-- Empty shape environment, used to instantiate general statements. -/
def emptyEnv : ShapeEnv := fun _ => []

/-- Model buildNodeTree produces from bobRecord. -/
def bobModel : Model :=
  [("NeoBaseModel", .ptrModel "NeoBaseModel" []),
   ("Username", .str "bob"),
   ("UserID", .intV 8),
   ("ID", .str "4:u:2"),
   ("Worlds", .sliceV [])]

/-- Model the recursive mapping produces from oziaNode. -/
def oziaModel : Model :=
  [("NeoBaseModel", .ptrModel "NeoBaseModel" []),
   ("ID", .str "4:w:9"),
   ("Name", .str "Ozia"),
   ("Type", .str "plane"),
   ("Description", .str "old"),
   ("Continents", .sliceV []),
   ("Oceans", .sliceV [])]

/-- User model after mapping the duplicated ozia related-node list. -/
def c2ResultModel : Model :=
  [("NeoBaseModel", .ptrModel "NeoBaseModel" []),
   ("Username", .str ""),
   ("UserID", .intV 0),
   ("ID", .str ""),
   ("Worlds", .sliceV [.ptrModel "World" oziaModel, .ptrModel "World" oziaModel])]

/-- Worlds relationship field of the User shape. -/
def worldsField : GoField := ⟨"Worlds", "", "OWNS,->", .sliceOfPtr "World"⟩

/- ------------------------------------------------------------------
Helper lemmas shared by the claim theorems.
------------------------------------------------------------------ -/

theorem MapOut.bind_assoc {α β γ : Type} (o : MapOut α) (f : α → MapOut β) (g : β → MapOut γ) :
    (o.bind f).bind g = o.bind (fun a => (f a).bind g) := by
  cases o <;> rfl

theorem mapFieldsM_append (step : GoField → Model → MapOut Model) (xs ys : List GoField) (m : Model) :
    mapFieldsM step (xs ++ ys) m
      = (mapFieldsM step xs m).bind (fun m1 => mapFieldsM step ys m1) := by
  induction xs generalizing m with
  | nil => simp [mapFieldsM, MapOut.bind]
  | cons f rest ih =>
    simp only [List.cons_append, mapFieldsM, MapOut.bind_assoc]
    cases h : step f m <;> simp [MapOut.bind, ih]

theorem setField_fst (m : Model) (name : String) (v : GoVal) :
    (setField m name v).map Prod.fst = m.map Prod.fst := by
  simp only [setField, List.map_map]
  apply List.map_congr_left
  intro p _
  by_cases h : p.1 = name <;> simp [h]

theorem lookupField_setField_self (m : Model) (name : String) (v : GoVal)
    (h : name ∈ m.map Prod.fst) :
    lookupField (setField m name v) name = some v := by
  induction m with
  | nil => simp at h
  | cons p rest ih =>
    simp only [List.map_cons, List.mem_cons] at h
    by_cases hp : p.1 == name
    · simp [setField, lookupField, List.find?, hp]
    · have hne : name ≠ p.1 := by
        intro he; exact hp (by simp [he])
      have h2 : name ∈ rest.map Prod.fst := by
        cases h with
        | inl he => exact absurd he.symm (fun hx => hne hx.symm)
        | inr hr => exact hr
      simpa [setField, lookupField, List.find?, hp] using ih h2

theorem lookupField_setField_ne (m : Model) (name other : String) (v : GoVal)
    (h : other ≠ name) :
    lookupField (setField m name v) other = lookupField m other := by
  induction m with
  | nil => simp [setField, lookupField]
  | cons p rest ih =>
    by_cases hp : p.1 == name
    · have hpe : p.1 = name := by simpa using hp
      have hno : (name == other) = false := by
        simp [BEq.comm]
        exact fun he => h he.symm
      simp [setField, lookupField, List.find?, hp, hpe, hno] at ih ⊢
      simpa [lookupField] using ih
    · by_cases ho : p.1 == other
      · simp [setField, lookupField, List.find?, hp, ho]
      · simp [setField, lookupField, List.find?, hp, ho] at ih ⊢
        simpa [lookupField] using ih

theorem relStep_ok_fst (env : ShapeEnv) (reg : Registry) (rels : List GoVal)
    (f : GoField) (m m1 : Model)
    (h : mapRelFieldStep env reg rels f m = .ok m1) :
    m1.map Prod.fst = m.map Prod.fst := by
  obtain ⟨fn, fnt, frt, fty⟩ := f
  unfold mapRelFieldStep at h
  by_cases hr : frt == ""
  · simp [hr] at h; subst h; rfl
  · simp only [hr, Bool.false_eq_true, if_false] at h
    cases fty with
    | sliceOfPtr nm =>
      cases hb : buildRelatedSlice env reg nm rels <;>
        simp [hb, MapOut.bind] at h
      subst h
      exact setField_fst ..
    | strTy => simp at h; subst h; rfl
    | int64Ty => simp at h; subst h; rfl
    | boolTy => simp at h; subst h; rfl
    | ptrTo nm => simp at h; subst h; rfl
    | structOf nm => simp at h; subst h; rfl

theorem relStep_ok_other (env : ShapeEnv) (reg : Registry) (rels : List GoVal)
    (f : GoField) (m m1 : Model) (other : String)
    (h : mapRelFieldStep env reg rels f m = .ok m1) (hne : other ≠ f.name) :
    lookupField m1 other = lookupField m other := by
  obtain ⟨fn, fnt, frt, fty⟩ := f
  unfold mapRelFieldStep at h
  by_cases hr : frt == ""
  · simp [hr] at h; subst h; rfl
  · simp only [hr, Bool.false_eq_true, if_false] at h
    cases fty with
    | sliceOfPtr nm =>
      cases hb : buildRelatedSlice env reg nm rels <;>
        simp [hb, MapOut.bind] at h
      subst h
      exact lookupField_setField_ne _ _ _ _ hne
    | strTy => simp at h; subst h; rfl
    | int64Ty => simp at h; subst h; rfl
    | boolTy => simp at h; subst h; rfl
    | ptrTo nm => simp at h; subst h; rfl
    | structOf nm => simp at h; subst h; rfl

theorem mapFieldsM_rel_ok_fst (env : ShapeEnv) (reg : Registry) (rels : List GoVal) :
    ∀ (fields : List GoField) (m m1 : Model),
    mapFieldsM (mapRelFieldStep env reg rels) fields m = .ok m1 →
    m1.map Prod.fst = m.map Prod.fst := by
  intro fields
  induction fields with
  | nil => intro m m1 h; simp [mapFieldsM] at h; subst h; rfl
  | cons f rest ih =>
    intro m m1 h
    simp only [mapFieldsM] at h
    cases hs : mapRelFieldStep env reg rels f m <;> simp [hs, MapOut.bind] at h
    case ok m2 =>
      exact (ih m2 m1 h).trans (relStep_ok_fst env reg rels f m m2 hs)

theorem mapFieldsM_rel_ok_other (env : ShapeEnv) (reg : Registry) (rels : List GoVal) :
    ∀ (fields : List GoField) (m m1 : Model) (other : String),
    mapFieldsM (mapRelFieldStep env reg rels) fields m = .ok m1 →
    other ∉ fields.map GoField.name →
    lookupField m1 other = lookupField m other := by
  intro fields
  induction fields with
  | nil => intro m m1 other h _; simp [mapFieldsM] at h; subst h; rfl
  | cons f rest ih =>
    intro m m1 other h hmem
    simp only [List.map_cons, List.mem_cons] at hmem
    push_neg at hmem
    simp only [mapFieldsM] at h
    cases hs : mapRelFieldStep env reg rels f m <;> simp [hs, MapOut.bind] at h
    case ok m2 =>
      have h1 := ih m2 m1 other h hmem.2
      have h2 := relStep_ok_other env reg rels f m m2 other hs hmem.1
      exact h1.trans h2

theorem buildRelatedSlice_ok_length (env : ShapeEnv) (reg : Registry) (tn : String) :
    ∀ (rels : List GoVal) (l : List GoVal),
    buildRelatedSlice env reg tn rels = .ok l →
    l.length = rels.countP (fun v => (GoVal.asNode v).isSome) := by
  intro rels
  induction rels with
  | nil =>
    intro l h
    simp [buildRelatedSlice] at h
    subst h
    simp
  | cons v rest ih =>
    intro l h
    unfold buildRelatedSlice at h
    cases hv : v.asNode with
    | none =>
      simp only [hv] at h
      have := ih l h
      simp [List.countP_cons, hv, this]
    | some nd =>
      simp only [hv] at h
      cases hres : resolveTypeFromLabels reg nd.labels <;> simp only [hres] at h
      case err e => cases h
      case crash e => cases h
      case ok tname =>
        by_cases htn : tname = tn
        · subst htn
          simp only [bne_self_eq_false, Bool.false_eq_true, if_false] at h
          cases hmap : mapNodeToModelReflect (env tname) nd (zeroModel (env tname)) <;>
            simp only [hmap] at h
          · cases hrest : buildRelatedSlice env reg tname rest <;>
              simp only [hrest, MapOut.bind] at h
            · cases h
              simp [List.countP_cons, hv, ih _ hrest]
            · cases h
            · cases h
          · cases hrest : buildRelatedSlice env reg tname rest <;>
              simp only [hrest, MapOut.bind] at h
            · cases h
              simp [List.countP_cons, hv, ih _ hrest]
            · cases h
            · cases h
          · cases h
        · have hbne : (tname != tn) = true := by
            simpa [bne_iff_ne] using htn
          simp only [hbne, if_true] at h
          cases h

theorem buildRelatedSlice_append (env : ShapeEnv) (reg : Registry) (tn : String) :
    ∀ (xs ys : List GoVal),
    buildRelatedSlice env reg tn (xs ++ ys)
      = (buildRelatedSlice env reg tn xs).bind
          (fun l1 => (buildRelatedSlice env reg tn ys).bind (fun l2 => .ok (l1 ++ l2))) := by
  intro xs ys
  induction xs with
  | nil =>
    simp only [List.nil_append]
    conv_rhs => rw [buildRelatedSlice]
    cases hys : buildRelatedSlice env reg tn ys <;> simp [MapOut.bind]
  | cons v rest ih =>
    simp only [List.cons_append]
    conv_lhs => rw [buildRelatedSlice]
    conv_rhs => rw [buildRelatedSlice]
    cases hv : v.asNode with
    | none => simpa only [hv] using ih
    | some nd =>
      simp only [hv]
      cases hres : resolveTypeFromLabels reg nd.labels <;> simp only [hres]
      case err e => simp [MapOut.bind]
      case crash e => simp [MapOut.bind]
      case ok tname =>
        by_cases htn : tname = tn
        · subst htn
          simp only [bne_self_eq_false, Bool.false_eq_true, if_false]
          cases hmap : mapNodeToModelReflect (env tname) nd (zeroModel (env tname)) <;>
            simp only [hmap]
          · rw [ih]
            cases hrest : buildRelatedSlice env reg tname rest <;>
              cases hys : buildRelatedSlice env reg tname ys <;>
                simp [hrest, hys, MapOut.bind]
          · rw [ih]
            cases hrest : buildRelatedSlice env reg tname rest <;>
              cases hys : buildRelatedSlice env reg tname ys <;>
                simp [hrest, hys, MapOut.bind]
          · simp [MapOut.bind]
        · have hbne : (tname != tn) = true := by
            simpa [bne_iff_ne] using htn
          simp [hbne, MapOut.bind]

theorem relStep_inactive (env : ShapeEnv) (reg : Registry) (rels : List GoVal)
    (f : GoField) (m : Model) (h : relActive f = false) :
    mapRelFieldStep env reg rels f m = .ok m := by
  obtain ⟨fn, fnt, frt, fty⟩ := f
  unfold relActive at h
  unfold mapRelFieldStep
  by_cases hr : frt == ""
  · simp [hr]
  · simp only [hr] at h
    simp only [hr, Bool.false_eq_true, if_false]
    cases fty <;> simp_all

theorem relStep_active_slice (env : ShapeEnv) (reg : Registry) (rels : List GoVal)
    (f : GoField) (m : Model) (tn : String)
    (hr : f.relTag ≠ "") (hty : f.ty = .sliceOfPtr tn) :
    mapRelFieldStep env reg rels f m
      = (buildRelatedSlice env reg tn rels).bind
          (fun l => .ok (setField m f.name (.sliceV l))) := by
  have hr2 : (f.relTag == "") = false := by
    simpa using hr
  unfold mapRelFieldStep
  rw [hr2]
  simp only [Bool.false_eq_true, if_false, hty]

theorem mapRelated_field_value (env : ShapeEnv) (reg : Registry) (rels : List GoVal) :
    ∀ (shape : List GoField) (m m1 : Model) (f : GoField) (tn : String),
    mapFieldsM (mapRelFieldStep env reg rels) shape m = .ok m1 →
    f ∈ shape → f.relTag ≠ "" → f.ty = .sliceOfPtr tn →
    (shape.map GoField.name).Nodup →
    f.name ∈ m.map Prod.fst →
    ∃ l, buildRelatedSlice env reg tn rels = .ok l
         ∧ lookupField m1 f.name = some (.sliceV l) := by
  intro shape
  induction shape with
  | nil => intro m m1 f tn _ hmem; cases hmem
  | cons g rest ih =>
    intro m m1 f tn h hmem hr hty hnd hdom
    simp only [mapFieldsM] at h
    cases hs : mapRelFieldStep env reg rels g m <;> simp [hs, MapOut.bind] at h
    case ok m2 =>
    rcases List.mem_cons.mp hmem with heq | hmem2
    · rw [heq] at hr hty ⊢
      rw [relStep_active_slice env reg rels g m tn hr hty] at hs
      have hnd1 : g.name ∉ rest.map GoField.name ∧ (rest.map GoField.name).Nodup := by
        rw [List.map_cons] at hnd
        exact List.nodup_cons.mp hnd
      cases hb : buildRelatedSlice env reg tn rels <;>
        simp only [hb, MapOut.bind] at hs
      case ok l =>
        refine ⟨l, rfl, ?_⟩
        cases hs
        have hpres := mapFieldsM_rel_ok_other env reg rels rest _ m1 g.name h hnd1.1
        rw [hpres]
        have hdom2 : g.name ∈ m.map Prod.fst := by rw [heq] at hdom; exact hdom
        exact lookupField_setField_self m g.name _ hdom2
      case err e => cases hs
      case crash e => cases hs
    · have hnd2 : (rest.map GoField.name).Nodup := by
        rw [List.map_cons] at hnd
        exact (List.nodup_cons.mp hnd).2
      have hdom2 : f.name ∈ m2.map Prod.fst := by
        rw [relStep_ok_fst env reg rels g m m2 hs]
        exact hdom
      exact ih m2 m1 f tn h hmem2 hr hty hnd2 hdom2

theorem mapRelated_err_lift (env : ShapeEnv) (reg : Registry) (rels : List GoVal) :
    ∀ (pre : List GoField) (f : GoField) (post : List GoField) (m : Model) (tn : String) (e : String),
    (∀ g ∈ pre, relActive g = false) →
    f.relTag ≠ "" → f.ty = .sliceOfPtr tn →
    buildRelatedSlice env reg tn rels = .err e →
    mapRelatedNodesToModel env reg (pre ++ f :: post) rels m = .err e := by
  intro pre
  induction pre with
  | nil =>
    intro f post m tn e _ hr hty hb
    unfold mapRelatedNodesToModel
    simp only [List.nil_append, mapFieldsM]
    rw [relStep_active_slice env reg rels f m tn hr hty, hb]
    rfl
  | cons g rest ih =>
    intro f post m tn e hpre hr hty hb
    unfold mapRelatedNodesToModel
    simp only [List.cons_append, mapFieldsM]
    rw [relStep_inactive env reg rels g m (hpre g (by simp))]
    have := ih f post m tn e (fun g2 hg2 => hpre g2 (by simp [hg2])) hr hty hb
    unfold mapRelatedNodesToModel at this
    simpa [MapOut.bind] using this

theorem mapNodeFieldStep_not_err (nd : NNode) (f : GoField) (m : Model) :
    (mapNodeFieldStep nd f m).isErr = false := by
  unfold mapNodeFieldStep
  repeat' split
  all_goals rfl

theorem mapNodeToModel_not_err (nd : NNode) :
    ∀ (shape : List GoField) (m : Model), (mapNodeToModel shape nd m).isErr = false := by
  intro shape
  induction shape with
  | nil => intro m; rfl
  | cons f rest ih =>
    intro m
    unfold mapNodeToModel mapFieldsM
    cases hs : mapNodeFieldStep nd f m
    case ok m2 => simpa [MapOut.bind] using ih m2
    case err e =>
      have := mapNodeFieldStep_not_err nd f m
      rw [hs] at this
      cases this
    case crash e => rfl

theorem mapNodeFieldStep_mismatch (nd : NNode) (f : GoField) (m : Model) (v : GoVal)
    (hid : f.name ≠ "ID") (hlabel : f.name ≠ "Label") (htag : f.nodeTag ≠ "")
    (hprop : lookupProp nd.props f.nodeTag = some v)
    (hassign : assignable v f.ty = false) :
    mapNodeFieldStep nd f m = .crash setMismatchMsg := by
  have h1 : (f.name == "ID") = false := by simpa using hid
  have h2 : (f.name == "Label") = false := by simpa using hlabel
  have h3 : (f.nodeTag == "") = false := by simpa using htag
  unfold mapNodeFieldStep
  rw [h1]
  simp only [Bool.false_and, Bool.false_eq_true, if_false, h2, h3, hprop, hassign]

theorem mapNodeToModel_crash_lift (nd : NNode) :
    ∀ (shape1 shape2 : List GoField) (m m1 : Model) (f : GoField) (e : String),
    mapNodeToModel shape1 nd m = .ok m1 →
    mapNodeFieldStep nd f m1 = .crash e →
    mapNodeToModel (shape1 ++ f :: shape2) nd m = .crash e := by
  intro shape1 shape2 m m1 f e h hstep
  unfold mapNodeToModel at h ⊢
  rw [mapFieldsM_append, h]
  simp only [MapOut.bind, mapFieldsM, hstep]

theorem resolve_none (reg : Registry) :
    ∀ (labels : List String), (∀ l ∈ labels, reg l = none) →
    resolveTypeFromLabels reg labels
      = .err ("unknown label: " ++ String.intercalate " " labels) := by
  intro labels h
  have hfs : labels.findSome? reg = none := by
    induction labels with
    | nil => rfl
    | cons a rest ih =>
      rw [List.findSome?_cons]
      rw [h a (by simp)]
      exact ih (fun l hl => h l (by simp [hl]))
  unfold resolveTypeFromLabels
  rw [hfs]

theorem findSome_first (reg : Registry) :
    ∀ (pre : List String) (l : String) (t : String) (post : List String),
    (∀ l2 ∈ pre, reg l2 = none) → reg l = some t →
    (pre ++ l :: post).findSome? reg = some t := by
  intro pre
  induction pre with
  | nil =>
    intro l t post _ hl
    simp [List.findSome?_cons, hl]
  | cons a rest ih =>
    intro l t post hpre hl
    have ha : reg a = none := hpre a (by simp)
    simp only [List.cons_append, List.findSome?_cons, ha]
    exact ih l t post (fun l2 h2 => hpre l2 (by simp [h2])) hl

theorem resolve_first (reg : Registry) :
    ∀ (pre : List String) (l : String) (t : String) (post : List String),
    (∀ l2 ∈ pre, reg l2 = none) → reg l = some t →
    resolveTypeFromLabels reg (pre ++ l :: post) = .ok t := by
  intro pre l t post hpre hl
  unfold resolveTypeFromLabels
  rw [findSome_first reg pre l t post hpre hl]

theorem relLoop_one (descend : String → Int → Option (List String)) :
    ∀ (fields : List GoField), relLoop descend fields 1 = some (rootLevelClauses fields) := by
  intro fields
  induction fields with
  | nil => rfl
  | cons f rest ih =>
    unfold relLoop
    by_cases hr : f.relTag == ""
    · have hc : clauseOf f = none := by simp [clauseOf, hr]
      simp only [hr, if_true, rootLevelClauses, List.filterMap_cons, hc]
      simpa [rootLevelClauses] using ih
    · simp only [hr, Bool.false_eq_true, if_false]
      cases hp : parseRelTag f.relTag with
      | none =>
        have hc : clauseOf f = none := by simp [clauseOf, hr, hp]
        simp only [rootLevelClauses, List.filterMap_cons, hc]
        simpa [rootLevelClauses] using ih
      | some p =>
        obtain ⟨relType, relDirection⟩ := p
        have hc : clauseOf f = some (relPath relType relDirection (relatedNodeLabel f)) := by
          simp [clauseOf, hr, hp]
        have hone : ((1 : Int) != 1) = false := rfl
        simp only [hp, hone, Bool.false_eq_true, if_false, ih,
          rootLevelClauses, List.filterMap_cons, hc]
        simp [rootLevelClauses]

theorem relLoop_congr (d1 d2 : Int)
    (descend1 descend2 : String → Int → Option (List String))
    (h1 : d1 ≠ 1) (h2 : d2 ≠ 1)
    (hdes : ∀ nm, descend1 nm (normDepth (d1 - 1)) = descend2 nm (normDepth (d2 - 1))) :
    ∀ (fields : List GoField), relLoop descend1 fields d1 = relLoop descend2 fields d2 := by
  intro fields
  have hb1 : (d1 != 1) = true := by simpa [bne_iff_ne] using h1
  have hb2 : (d2 != 1) = true := by simpa [bne_iff_ne] using h2
  induction fields with
  | nil => rfl
  | cons f rest ih =>
    unfold relLoop
    by_cases hr : f.relTag == ""
    · simp only [hr, if_true]; exact ih
    · simp only [hr, Bool.false_eq_true, if_false]
      cases hp : parseRelTag f.relTag with
      | none => exact ih
      | some p =>
        obtain ⟨relType, relDirection⟩ := p
        simp only [hb1, hb2, if_true, ih]
        cases f.ty <;> simp [hdes]

theorem buildRelsFrom_nonpos (env : ShapeEnv) :
    ∀ (fuel : Nat) (fields : List GoField) (d : Int), d ≤ 0 →
    buildRelsFrom env fuel fields d = specFullExpansion env fuel fields := by
  intro fuel
  induction fuel with
  | zero =>
    intro fields d hd
    unfold buildRelsFrom specFullExpansion
    exact relLoop_congr d (-1) _ _ (by omega) (by omega) (fun nm => rfl) fields
  | succ fuel ih =>
    intro fields d hd
    unfold buildRelsFrom specFullExpansion
    refine relLoop_congr d (-1) _ _ (by omega) (by omega) (fun nm => ?_) fields
    have hnd : normDepth (d - 1) = d - 1 := by
      unfold normDepth
      have : (d - 1 == 0) = false := by
        have : d - 1 ≠ 0 := by omega
        simpa using this
      rw [this]
      rfl
    rw [hnd]
    exact ih (env nm) (d - 1) (by omega)

theorem selfRef_diverges (fuel : Nat) :
    ∀ (d : Int), d ≤ 0 → buildRelsFrom selfRefEnv fuel (selfRefEnv "Person") d = none := by
  induction fuel with
  | zero =>
    intro d hd
    have hb : (d != 1) = true := by simpa [bne_iff_ne] using (by omega : d ≠ 1)
    unfold buildRelsFrom relLoop
    simp [selfRefEnv, parseRelTag, splitComma, hb]
  | succ fuel ih =>
    intro d hd
    have hb : (d != 1) = true := by simpa [bne_iff_ne] using (by omega : d ≠ 1)
    have hnd : normDepth (d - 1) = d - 1 := by
      unfold normDepth
      have h0 : (d - 1 == 0) = false := by
        have : d - 1 ≠ 0 := by omega
        simpa using this
      rw [h0]
      rfl
    have ihu : buildRelsFrom selfRefEnv fuel
        [⟨"Friends", "", "FRIEND,->", .sliceOfPtr "Person"⟩] (d - 1) = none := by
      simpa [selfRefEnv] using ih (d - 1) (by omega)
    unfold buildRelsFrom relLoop
    simp [selfRefEnv, parseRelTag, splitComma, hb, hnd, ihu]

theorem mutual_diverges (fuel : Nat) :
    ∀ (d : Int), d ≤ 0 →
    buildRelsFrom mutualEnv fuel (mutualEnv "A") d = none
    ∧ buildRelsFrom mutualEnv fuel (mutualEnv "B") d = none := by
  induction fuel with
  | zero =>
    intro d hd
    have hb : (d != 1) = true := by simpa [bne_iff_ne] using (by omega : d ≠ 1)
    constructor <;>
      (unfold buildRelsFrom relLoop; simp [mutualEnv, parseRelTag, splitComma, hb])
  | succ fuel ih =>
    intro d hd
    have hb : (d != 1) = true := by simpa [bne_iff_ne] using (by omega : d ≠ 1)
    have hnd : normDepth (d - 1) = d - 1 := by
      unfold normDepth
      have h0 : (d - 1 == 0) = false := by
        have : d - 1 ≠ 0 := by omega
        simpa using this
      rw [h0]
      rfl
    have ihA : buildRelsFrom mutualEnv fuel
        [⟨"Bs", "", "LINKS,->", .sliceOfPtr "B"⟩] (d - 1) = none := by
      simpa [mutualEnv] using (ih (d - 1) (by omega)).1
    have ihB : buildRelsFrom mutualEnv fuel
        [⟨"As", "", "LINKS,->", .sliceOfPtr "A"⟩] (d - 1) = none := by
      simpa [mutualEnv] using (ih (d - 1) (by omega)).2
    constructor <;>
      (unfold buildRelsFrom relLoop;
       simp [mutualEnv, parseRelTag, splitComma, hb, hnd, ihA, ihB])

theorem relLoop_isSome (descend : String → Int → Option (List String)) (d : Int) :
    ∀ (fields : List GoField),
    (d = 1 ∨ ∀ f ∈ fields, f.relTag ≠ "" → ∀ nm, relTarget f.ty = some nm →
       (descend nm (normDepth (d - 1))).isSome = true) →
    (relLoop descend fields d).isSome = true := by
  intro fields
  induction fields with
  | nil => intro _; rfl
  | cons f rest ih =>
    intro h
    have hrest : d = 1 ∨ ∀ g ∈ rest, g.relTag ≠ "" → ∀ nm, relTarget g.ty = some nm →
        (descend nm (normDepth (d - 1))).isSome = true := by
      cases h with
      | inl h1 => exact Or.inl h1
      | inr h2 => exact Or.inr (fun g hg => h2 g (by simp [hg]))
    have ihr := ih hrest
    unfold relLoop
    by_cases hr : f.relTag == ""
    · simpa [hr] using ihr
    · simp only [hr, Bool.false_eq_true, if_false]
      cases hp : parseRelTag f.relTag with
      | none => exact ihr
      | some p =>
        obtain ⟨rt, rd⟩ := p
        have hnested :
            (if (d != 1) = true then
               match f.ty with
               | .structOf nm => descend nm (normDepth (d - 1))
               | .ptrTo nm => descend nm (normDepth (d - 1))
               | .sliceOfPtr nm => descend nm (normDepth (d - 1))
               | _ => some []
             else some []).isSome = true := by
          by_cases hd1 : d = 1
          · simp [hd1]
          · have hb : (d != 1) = true := by simpa [bne_iff_ne] using hd1
            simp only [hb, if_true]
            have hdes : ∀ nm, relTarget f.ty = some nm →
                (descend nm (normDepth (d - 1))).isSome = true := by
              cases h with
              | inl h1 => exact absurd h1 hd1
              | inr h2 =>
                intro nm hnm
                exact h2 f (by simp) (by simpa using hr) nm hnm
            cases hty : f.ty with
            | structOf nm => exact hdes nm (by rw [hty]; rfl)
            | ptrTo nm => exact hdes nm (by rw [hty]; rfl)
            | sliceOfPtr nm => exact hdes nm (by rw [hty]; rfl)
            | strTy => rfl
            | int64Ty => rfl
            | boolTy => rfl
        cases hn : (if (d != 1) = true then
               match f.ty with
               | .structOf nm => descend nm (normDepth (d - 1))
               | .ptrTo nm => descend nm (normDepth (d - 1))
               | .sliceOfPtr nm => descend nm (normDepth (d - 1))
               | _ => some []
             else some []) with
        | none => rw [hn] at hnested; cases hnested
        | some ns =>
          cases hrl : relLoop descend rest d with
          | none => rw [hrl] at ihr; cases ihr
          | some rs => simp [hn, hrl]

theorem buildRelsFrom_pos_isSome (env : ShapeEnv) :
    ∀ (fuel : Nat) (fields : List GoField) (d : Int), 1 ≤ d → d ≤ fuel + 1 →
    (buildRelsFrom env fuel fields d).isSome = true := by
  intro fuel
  induction fuel with
  | zero =>
    intro fields d h1 h2
    have hd : d = 1 := by omega
    subst hd
    unfold buildRelsFrom
    rw [relLoop_one]
    rfl
  | succ fuel ih =>
    intro fields d h1 h2
    unfold buildRelsFrom
    apply relLoop_isSome
    by_cases hd1 : d = 1
    · exact Or.inl hd1
    · right
      intro f _ _ nm _
      have hnd : normDepth (d - 1) = d - 1 := by
        unfold normDepth
        have h0 : (d - 1 == 0) = false := by
          have : d - 1 ≠ 0 := by omega
          simpa using this
        rw [h0]; rfl
      rw [hnd]
      exact ih (env nm) (d - 1) (by omega) (by omega)

theorem buildRelsFrom_rank_isSome (env : ShapeEnv) (rank : String → Nat)
    (hrb : RankBound env rank) :
    ∀ (B : Nat) (fuel : Nat) (fields : List GoField) (d : Int),
    (∀ f ∈ fields, f.relTag ≠ "" → ∀ tn, relTarget f.ty = some tn → rank tn < B) →
    B ≤ fuel →
    (buildRelsFrom env fuel fields d).isSome = true := by
  intro B
  induction B using Nat.strong_induction_on with
  | _ B ihB =>
    intro fuel fields d hflds hBf
    cases fuel with
    | zero =>
      unfold buildRelsFrom
      apply relLoop_isSome
      right
      intro f hf hr nm hnm
      have hlt : rank nm < B := hflds f hf hr nm hnm
      exact absurd hlt (by omega)
    | succ fuel =>
      unfold buildRelsFrom
      apply relLoop_isSome
      right
      intro f hf hr nm hnm
      have hlt : rank nm < B := hflds f hf hr nm hnm
      exact ihB (rank nm) hlt fuel (env nm) _
        (fun g hg hgr tn htn => hrb nm g hg hgr tn htn) (by omega)

theorem processRecord_none (env : ShapeEnv) (reg : Registry) (shape : List GoField) (rec : Record) :
    processRecord env reg shape rec = .ok none → recordGet rec "n" = none := by
  intro hp
  unfold processRecord at hp
  cases hn : recordGet rec "n" with
  | none => rfl
  | some nv =>
    rw [hn] at hp
    exfalso
    cases hv : nv.asNode <;> simp only [hv] at hp
    · cases hp
    · rename_i nd
      cases hm : mapNodeToModel shape nd (zeroModel shape) <;> simp only [hm] at hp
      · rename_i model
        cases hrn : recordGet rec "relatedNodes" <;> simp only [hrn] at hp
        · simp at hp
        · rename_i rv
          cases rv <;> simp only [] at hp
          case null => simp at hp
          case listV items =>
            cases hmr : mapRelatedNodesToModel env reg shape items model <;>
              simp only [hmr] at hp
            · simp at hp
            · cases hp
            · cases hp
          all_goals cases hp
      · cases hp
      · cases hp

theorem buildNodeTree_ok_length (env : ShapeEnv) (reg : Registry) (shape : List GoField) :
    ∀ (recs : List Record) (ms : List Model),
    buildNodeTree env reg shape recs = .ok ms →
    ms.length = (recs.filter (fun r => (recordGet r "n").isSome)).length := by
  intro recs
  induction recs with
  | nil =>
    intro ms h
    cases h
    rfl
  | cons rec rest ih =>
    intro ms h
    unfold buildNodeTree at h
    cases hp : processRecord env reg shape rec <;> rw [hp] at h
    case err e => cases h
    case crash e => cases h
    case ok o =>
      cases o with
      | none =>
        have hn : recordGet rec "n" = none := processRecord_none env reg shape rec hp
        have := ih ms h
        simp [List.filter_cons, hn, this]
      | some m =>
        cases hb : buildNodeTree env reg shape rest <;>
          simp only [hb, MapOut.bind] at h
        case err e => cases h
        case crash e => cases h
        case ok l =>
          cases h
          have hn : (recordGet rec "n").isSome = true := by
            by_contra hc
            have hnone : recordGet rec "n" = none := by
              cases hq : recordGet rec "n"
              · rfl
              · rw [hq] at hc; exact absurd rfl hc
            unfold processRecord at hp
            rw [hnone] at hp
            cases hp
          simp [List.filter_cons, hn, ih l hb]

/- ------------------------------------------------------------------
Claim theorems.
------------------------------------------------------------------ -/

/-- C1 counterexample: two records carrying the very same node value
(one distinct engine identifier) reconstruct to two models, not one, so
the number of output nodes follows the number of records, not the
number of distinct identifiers. -/
theorem c1_counterexample :
    buildNodeTree appEnv appRegistry userShape [aliceRecord, aliceRecordAgain]
      = .ok [aliceModel, aliceModel]
    ∧ (topNodeIds [aliceRecord, aliceRecordAgain]).dedup.length = 1 :=
  ⟨rfl, rfl⟩

/-- C1 (amended): node tree reconstruction deduplicates nothing: on a
successful read the number of reconstructed models equals the number of
records whose n column is present, regardless of how many distinct
engine identifiers occur in the records. -/
theorem c1_no_dedup (env : ShapeEnv) (reg : Registry) (shape : List GoField)
    (recs : List Record) (ms : List Model)
    (h : buildNodeTree env reg shape recs = .ok ms) :
    ms.length = (recs.filter (fun r => (recordGet r "n").isSome)).length :=
  buildNodeTree_ok_length env reg shape recs ms h

/-- C1 witness: the amended statement at a concrete two-record input. -/
theorem c1_witness :
    ([aliceModel, aliceModel] : List Model).length
      = (([aliceRecord, aliceRecordAgain] : List Record).filter
          (fun r => (recordGet r "n").isSome)).length :=
  c1_no_dedup appEnv appRegistry userShape [aliceRecord, aliceRecordAgain]
    [aliceModel, aliceModel] (by rfl)

/-- C2 counterexample: one related-node list holding the same World
node twice (one distinct identifier) yields a Worlds sequence with two
occurrences of that child, not one. -/
theorem c2_counterexample :
    fieldSliceLength (mapRelatedNodesToModel appEnv appRegistry userShape
        [oziaNode, oziaNode] (zeroModel userShape)) "Worlds" = some 2
    ∧ (nodeIdsOf [oziaNode, oziaNode]).dedup.length = 1 :=
  ⟨rfl, rfl⟩

/-- C2 (amended): child attachment is a plain append with no
idempotence check: on a successful mapping, a relationship-tagged slice
field receives one occurrence per Node entry of the related list,
duplicates included, so k occurrences of the same child produce k
occurrences in the parent's sequence. -/
theorem c2_append_no_dedup (env : ShapeEnv) (reg : Registry) (shape : List GoField)
    (rels : List GoVal) (m m1 : Model) (f : GoField) (tn : String)
    (h : mapRelatedNodesToModel env reg shape rels m = .ok m1)
    (hmem : f ∈ shape) (hr : f.relTag ≠ "") (hty : f.ty = .sliceOfPtr tn)
    (hnd : (shape.map GoField.name).Nodup) (hdom : f.name ∈ m.map Prod.fst) :
    ∃ l, buildRelatedSlice env reg tn rels = .ok l
      ∧ lookupField m1 f.name = some (.sliceV l)
      ∧ l.length = rels.countP (fun v => (GoVal.asNode v).isSome) := by
  obtain ⟨l, hb, hlf⟩ :=
    mapRelated_field_value env reg rels shape m m1 f tn h hmem hr hty hnd hdom
  exact ⟨l, hb, hlf, buildRelatedSlice_ok_length env reg tn rels l hb⟩

/-- C2 witness: the amended statement at the duplicated ozia input. -/
theorem c2_witness :
    ∃ l, buildRelatedSlice appEnv appRegistry "World" [oziaNode, oziaNode] = .ok l
      ∧ lookupField c2ResultModel "Worlds" = some (.sliceV l)
      ∧ l.length = ([oziaNode, oziaNode] : List GoVal).countP
          (fun v => (GoVal.asNode v).isSome) :=
  c2_append_no_dedup appEnv appRegistry userShape [oziaNode, oziaNode]
    (zeroModel userShape) c2ResultModel worldsField "World"
    (by rfl) (by simp [userShape, worldsField]) (by simp [worldsField])
    (by rfl) (by simp [userShape]) (by simp [userShape, zeroModel, worldsField])

/-- C3 counterexample: a World parent with one Continent child and one
Ocean child does not route each child to its matching field; the whole
mapping fails with a type mismatch while building the Continents slice
from the Ocean child. -/
theorem c3_counterexample :
    mapRelatedNodesToModel appEnv appRegistry worldShape [contNode, oceanNode]
        (zeroModel worldShape)
      = .err "type mismatch: expected Continent, got Ocean" :=
  rfl

/-- C3 (amended): relationship slice fields are populated by mapping
every Node of the related list; a child whose label resolves to a
registered shape different from the field's target is not skipped but
aborts the whole mapping with a type-mismatch error, which the field
loop propagates, so a shape with relationship fields of different
target labels fails as soon as a child matches only one of them. -/
theorem c3_mismatch_aborts :
    (∀ (env : ShapeEnv) (reg : Registry) (tn : String) (xs : List GoVal)
       (l : List GoVal) (v : GoVal) (nd : NNode) (t1 : String) (ys : List GoVal),
       buildRelatedSlice env reg tn xs = .ok l →
       GoVal.asNode v = some nd →
       resolveTypeFromLabels reg nd.labels = .ok t1 → t1 ≠ tn →
       buildRelatedSlice env reg tn (xs ++ v :: ys)
         = .err ("type mismatch: expected " ++ tn ++ ", got " ++ t1))
    ∧ (∀ (env : ShapeEnv) (reg : Registry) (pre : List GoField) (f : GoField)
         (post : List GoField) (rels : List GoVal) (m : Model) (tn e : String),
       (∀ g ∈ pre, relActive g = false) →
       f.relTag ≠ "" → f.ty = .sliceOfPtr tn →
       buildRelatedSlice env reg tn rels = .err e →
       mapRelatedNodesToModel env reg (pre ++ f :: post) rels m = .err e) := by
  constructor
  · intro env reg tn xs l v nd t1 ys hxs hv hres hmis
    rw [buildRelatedSlice_append, hxs]
    have hhead : buildRelatedSlice env reg tn (v :: ys)
        = .err ("type mismatch: expected " ++ tn ++ ", got " ++ t1) := by
      have hb : (t1 != tn) = true := by simpa [bne_iff_ne] using hmis
      unfold buildRelatedSlice
      simp only [hv, hres, hb, if_true]
    rw [hhead]
    rfl
  · intro env reg pre f post rels m tn e hpre hr hty hb
    exact mapRelated_err_lift env reg rels pre f post m tn e hpre hr hty hb

/-- C3 witness: both halves of the amended statement at concrete
inputs. -/
theorem c3_witness :
    buildRelatedSlice appEnv appRegistry "Continent" ([] ++ oceanNode :: [])
      = .err ("type mismatch: expected " ++ "Continent" ++ ", got " ++ "Ocean")
    ∧ mapRelatedNodesToModel appEnv appRegistry
        ([⟨"ID", "id", "", .strTy⟩] ++ (⟨"Continents", "", "HAS,->", .sliceOfPtr "Continent"⟩ : GoField) :: [])
        [oceanNode] (zeroModel worldShape)
      = .err "type mismatch: expected Continent, got Ocean" := by
  constructor
  · exact c3_mismatch_aborts.1 appEnv appRegistry "Continent" [] [] oceanNode
      ⟨"4:o:4", ["Ocean"], [("id", .str "o4"), ("name", .str "Blue")]⟩ "Ocean" []
      (by rfl) (by rfl) (by rfl) (by decide)
  · exact c3_mismatch_aborts.2 appEnv appRegistry
      [⟨"ID", "id", "", .strTy⟩] ⟨"Continents", "", "HAS,->", .sliceOfPtr "Continent"⟩ []
      [oceanNode] (zeroModel worldShape) "Continent"
      "type mismatch: expected Continent, got Ocean"
      (by intro g hg; simp at hg; subst hg; rfl) (by decide) (by rfl) (by rfl)

/-- C4 counterexample: with two reconstructed roots the single-entity
read succeeds with the first root instead of failing, and with zero
records the multi-entity read fails instead of accepting zero roots. -/
theorem c4_counterexample :
    executeSingleFromRecords appEnv appRegistry userShape [aliceRecord, bobRecord]
      = .ok aliceModel
    ∧ executeMultipleFromRecords appEnv appRegistry userShape ([] : List Record)
      = .err "no nodes found" :=
  ⟨rfl, rfl⟩

/-- C4 (amended): the single-entity read fails with the not-found error
exactly when reconstruction yields zero roots and otherwise assigns the
first root, even when there are several; the multi-entity read fails
with the same error on zero roots and succeeds on one or more. -/
theorem c4_root_count (env : ShapeEnv) (reg : Registry) (shape : List GoField)
    (recs : List Record) (ms : List Model)
    (h : buildNodeTree env reg shape recs = .ok ms) :
    (ms = [] → executeSingleFromRecords env reg shape recs = .err "no nodes found")
    ∧ (∀ m0 tl, ms = m0 :: tl → executeSingleFromRecords env reg shape recs = .ok m0)
    ∧ (ms = [] → executeMultipleFromRecords env reg shape recs = .err "no nodes found")
    ∧ (ms ≠ [] → executeMultipleFromRecords env reg shape recs = .ok ms) := by
  refine ⟨?_, ?_, ?_, ?_⟩
  · intro hnil
    subst hnil
    unfold executeSingleFromRecords
    rw [h]
  · intro m0 tl hcons
    subst hcons
    unfold executeSingleFromRecords
    rw [h]
  · intro hnil
    subst hnil
    unfold executeMultipleFromRecords
    rw [h]
  · intro hne
    unfold executeMultipleFromRecords
    rw [h]
    cases ms with
    | nil => exact absurd rfl hne
    | cons m0 tl => rfl

/-- C4 witness: the amended statement at a concrete two-root input. -/
theorem c4_witness :
    executeSingleFromRecords appEnv appRegistry userShape [aliceRecord, bobRecord]
      = MapOut.ok aliceModel
    ∧ executeMultipleFromRecords appEnv appRegistry userShape [aliceRecord, bobRecord]
      = MapOut.ok [aliceModel, bobModel] :=
  have t := c4_root_count appEnv appRegistry userShape [aliceRecord, bobRecord]
    [aliceModel, bobModel] (by rfl)
  ⟨t.2.1 aliceModel [bobModel] rfl, t.2.2.2 (by simp)⟩

/-- C5: with depth one the walk emits exactly the clauses of the
relationship fields declared directly on the root shape, never
consulting any deeper shape, and with depth zero it equals the
unbounded full expansion that requests every relationship-tagged field
at every level reachable through the shape graph. -/
theorem c5_depth_semantics :
    (∀ (env : ShapeEnv) (fuel : Nat) (fields : List GoField),
       buildRelationships env fuel fields 1 = some (rootLevelClauses fields))
    ∧ (∀ (env : ShapeEnv) (fuel : Nat) (fields : List GoField),
       buildRelationships env fuel fields 0 = specFullExpansion env fuel fields) := by
  constructor
  · intro env fuel fields
    unfold buildRelationships
    cases fuel with
    | zero => exact relLoop_one _ fields
    | succ fuel => exact relLoop_one _ fields
  · intro env fuel fields
    unfold buildRelationships
    exact buildRelsFrom_nonpos env fuel fields (normDepth 0) (by norm_num [normDepth])

/-- C6: the relationship-field walk has no cycle guard: on the
self-referential shape and on the mutually referential pair it returns
no result at unbounded depth however much fuel it is given (the Go
recursion never terminates there), while any positive depth bound
terminates on every shape environment, and a rank certificate of
acyclicity of the relationship-reachable shape graph guarantees
termination at any depth, unbounded included. -/
theorem c6_no_cycle_guard :
    (∀ fuel : Nat, buildRelationships selfRefEnv fuel (selfRefEnv "Person") 0 = none)
    ∧ (∀ fuel : Nat, buildRelationships mutualEnv fuel (mutualEnv "A") 0 = none)
    ∧ (∀ (env : ShapeEnv) (fuel : Nat) (fields : List GoField) (d : Int),
         1 ≤ d → d ≤ fuel + 1 → (buildRelationships env fuel fields d).isSome = true)
    ∧ (∀ (env : ShapeEnv) (rank : String → Nat) (B fuel : Nat)
         (fields : List GoField) (d : Int),
         RankBound env rank →
         (∀ f ∈ fields, f.relTag ≠ "" → ∀ tn, relTarget f.ty = some tn → rank tn < B) →
         B ≤ fuel →
         (buildRelationships env fuel fields d).isSome = true) := by
  refine ⟨?_, ?_, ?_, ?_⟩
  · intro fuel
    unfold buildRelationships
    exact selfRef_diverges fuel (normDepth 0) (by norm_num [normDepth])
  · intro fuel
    unfold buildRelationships
    exact (mutual_diverges fuel (normDepth 0) (by norm_num [normDepth])).1
  · intro env fuel fields d h1 h2
    unfold buildRelationships
    have hnd : normDepth d = d := by
      unfold normDepth
      have h0 : (d == 0) = false := by
        have : d ≠ 0 := by omega
        simpa using this
      rw [h0]
      rfl
    rw [hnd]
    exact buildRelsFrom_pos_isSome env fuel fields d h1 h2
  · intro env rank B fuel fields d hrb hf hBf
    unfold buildRelationships
    exact buildRelsFrom_rank_isSome env rank hrb B fuel fields (normDepth d) hf hBf

/-- C6 witness: the four parts at concrete inputs — divergence of the
self-referential and mutual shapes at depth zero, termination of the
application shapes at depth two, and rank-certified termination on the
empty environment. -/
theorem c6_witness :
    buildRelationships selfRefEnv 7 (selfRefEnv "Person") 0 = none
    ∧ buildRelationships mutualEnv 7 (mutualEnv "A") 0 = none
    ∧ (buildRelationships appEnv 2 userShape 2).isSome = true
    ∧ (buildRelationships emptyEnv 0 ([] : List GoField) 0).isSome = true :=
  have t := c6_no_cycle_guard
  ⟨t.1 7, t.2.1 7,
   t.2.2.1 appEnv 2 userShape 2 (by omega) (by omega),
   t.2.2.2 emptyEnv (fun _ => 0) 0 0 [] 0
     (fun nm f hf => absurd hf (List.not_mem_nil f))
     (fun f hf => absurd hf (List.not_mem_nil f))
     (by omega)⟩

/-- C7: type resolution returns the shape of the first registered label
in the node's own label order, and fails with the unknown-label error
when no label of the set is registered. -/
theorem c7_first_registered_label (reg : Registry) (labels : List String) :
    ((∀ l ∈ labels, reg l = none) →
       resolveTypeFromLabels reg labels
         = .err ("unknown label: " ++ String.intercalate " " labels))
    ∧ (∀ (pre : List String) (l t : String) (post : List String),
        labels = pre ++ l :: post →
        (∀ l2 ∈ pre, reg l2 = none) → reg l = some t →
        resolveTypeFromLabels reg labels = .ok t) := by
  constructor
  · exact resolve_none reg labels
  · intro pre l t post hsplit hpre hl
    subst hsplit
    exact resolve_first reg pre l t post hpre hl

/-- C7 witness: resolution on a label set whose second label is the
first registered one, and on a fully unregistered label set. -/
theorem c7_witness :
    resolveTypeFromLabels appRegistry ["Ghost", "User"] = .ok "User"
    ∧ resolveTypeFromLabels appRegistry ["Ghost"]
        = .err ("unknown label: " ++ String.intercalate " " ["Ghost"]) :=
  ⟨(c7_first_registered_label appRegistry ["Ghost", "User"]).2
      ["Ghost"] "User" "User" [] rfl
      (by intro l2 h2; simp at h2; subst h2; rfl) rfl,
   (c7_first_registered_label appRegistry ["Ghost"]).1
      (by intro l hl; simp at hl; subst hl; rfl)⟩

/-- C8 counterexample: a node whose capital property is a string while
the Capital field is a bool makes the read panic with the reflection
mismatch message; no error value is returned. -/
theorem c8_counterexample :
    mapNodeToModel cityShape badCityNode (zeroModel cityShape) = .crash setMismatchMsg
    ∧ (mapNodeToModel cityShape badCityNode (zeroModel cityShape)).isErr = false :=
  ⟨rfl, rfl⟩

/-- C8 (amended): a property whose runtime type is not assignable to
the target field causes a reflection panic, not an error value: the
node mapping never returns an error outcome, the field step on a
present but ill-typed property is the mismatch panic, and a panicking
field aborts the whole mapping with that panic. -/
theorem c8_mismatch_panics :
    (∀ (shape : List GoField) (nd : NNode) (m : Model),
       (mapNodeToModel shape nd m).isErr = false)
    ∧ (∀ (nd : NNode) (f : GoField) (m : Model) (v : GoVal),
       f.name ≠ "ID" → f.name ≠ "Label" → f.nodeTag ≠ "" →
       lookupProp nd.props f.nodeTag = some v → assignable v f.ty = false →
       mapNodeFieldStep nd f m = .crash setMismatchMsg)
    ∧ (∀ (shape1 shape2 : List GoField) (nd : NNode) (m m1 : Model)
         (f : GoField) (e : String),
       mapNodeToModel shape1 nd m = .ok m1 →
       mapNodeFieldStep nd f m1 = .crash e →
       mapNodeToModel (shape1 ++ f :: shape2) nd m = .crash e) :=
  ⟨fun shape nd m => mapNodeToModel_not_err nd shape m,
   fun nd f m v hid hlabel htag hprop hassign =>
     mapNodeFieldStep_mismatch nd f m v hid hlabel htag hprop hassign,
   fun shape1 shape2 nd m m1 f e h hstep =>
     mapNodeToModel_crash_lift nd shape1 shape2 m m1 f e h hstep⟩

/-- C8 witness: the three parts at the bad city node. -/
theorem c8_witness :
    (mapNodeToModel cityShape badCityNode (zeroModel cityShape)).isErr = false
    ∧ mapNodeFieldStep badCityNode ⟨"Capital", "capital", "", .boolTy⟩
        (zeroModel cityShape) = .crash setMismatchMsg
    ∧ mapNodeToModel
        ([⟨"NeoBaseModel", "", "", .structOf "NeoBaseModel"⟩,
          ⟨"ID", "id", "", .strTy⟩,
          ⟨"Name", "name", "", .strTy⟩,
          ⟨"Type", "type", "", .strTy⟩,
          ⟨"Description", "description", "", .strTy⟩]
          ++ (⟨"Capital", "capital", "", .boolTy⟩ : GoField) :: [])
        badCityNode (zeroModel cityShape) = .crash setMismatchMsg :=
  have t := c8_mismatch_panics
  ⟨t.1 cityShape badCityNode (zeroModel cityShape),
   t.2.1 badCityNode ⟨"Capital", "capital", "", .boolTy⟩ (zeroModel cityShape)
     (.str "yes") (by decide) (by decide) (by decide) (by rfl) (by rfl),
   t.2.2
     [⟨"NeoBaseModel", "", "", .structOf "NeoBaseModel"⟩,
      ⟨"ID", "id", "", .strTy⟩,
      ⟨"Name", "name", "", .strTy⟩,
      ⟨"Type", "type", "", .strTy⟩,
      ⟨"Description", "description", "", .strTy⟩]
     [] badCityNode (zeroModel cityShape)
     [("NeoBaseModel", .ptrModel "NeoBaseModel" []),
      ("ID", .str "4:t:5"),
      ("Name", .str "Spire"),
      ("Type", .str ""),
      ("Description", .str ""),
      ("Capital", .boolV false)]
     ⟨"Capital", "capital", "", .boolTy⟩ setMismatchMsg (by rfl) (by rfl)⟩

/-- C9: Update matches by the entity's identifier through the
elementId clause of its statement, returns a normal outcome
unconditionally, and when the identifier matches no node in the graph
the call succeeds with the graph unchanged and zero rows affected — no
verification of the match count takes place. -/
theorem c9_update_zero_rows_ok (g : List NNode) (m : Model) :
    (UpdateOp g "User" userShape m noRelOptions).isOk = true
    ∧ ((∀ n ∈ g, nodeMatchesId n ((lookupField m "ID").getD .null) = false) →
        UpdateOp g "User" userShape m noRelOptions = .ok g
        ∧ (runUpdateTx g ((lookupField m "ID").getD .null)
             ((buildUpdateQuery "User" userShape m noRelOptions).2.filter
               (fun p => p.1 != "value" && p.1 != "relatedValue"))).2 = 0)
    ∧ (buildUpdateQuery "User" userShape m noRelOptions).1
        = "MATCH (n:User WHERE elementId(n) = $value) SET n.username = $username, n.userID = $userID" := by
  refine ⟨rfl, ?_, rfl⟩
  intro hno
  have hmap : ∀ (sets : List (String × GoVal)),
      (runUpdateTx g ((lookupField m "ID").getD .null) sets).1 = g := by
    intro sets
    unfold runUpdateTx
    conv_rhs => rw [← List.map_id g]
    apply List.map_congr_left
    intro n hn
    simp [hno n hn]
  have hcount : ∀ (sets : List (String × GoVal)),
      (runUpdateTx g ((lookupField m "ID").getD .null) sets).2 = 0 := by
    intro sets
    unfold runUpdateTx
    simp only [List.length_eq_zero]
    rw [List.filter_eq_nil_iff]
    intro n hn
    simp [hno n hn]
  constructor
  · show MapOut.ok ((runUpdateTx g ((lookupField m "ID").getD .null)
        ((buildUpdateQuery "User" userShape m noRelOptions).2.filter
          (fun p => p.1 != "value" && p.1 != "relatedValue"))).1) = MapOut.ok g
    rw [hmap]
  · exact hcount _

/-- C9 witness: updating with an entity whose identifier matches no
node of a one-node graph succeeds and leaves the graph unchanged. -/
theorem c9_witness :
    UpdateOp [⟨"4:z:9", ["User"], []⟩] "User" userShape aliceModel noRelOptions
      = .ok [⟨"4:z:9", ["User"], []⟩] :=
  ((c9_update_zero_rows_ok [⟨"4:z:9", ["User"], []⟩] aliceModel).2.1 (by decide)).1

/-- C10: a positive limit is embedded in the query text by direct
textual interpolation, the LIMIT clause sits immediately before the
final RETURN clause, and the parameter set carries only the root match
parameter, not the limit. -/
theorem c10_limit_before_return (env : ShapeEnv) (label field : String) (value : GoVal)
    (shape : List GoField) (depth limit : Int) (fuel : Nat) (rels : List String)
    (hpos : 0 < limit)
    (hrels : buildRelationships env fuel shape depth = some rels) :
    ∃ pre, buildQuery env label field value shape depth limit fuel
      = some (pre ++ " LIMIT " ++ toString limit
                ++ " RETURN n, collect(r) as relatedNodes",
              [(field, value)]) := by
  refine ⟨(rels.foldl (fun acc rel => acc ++ " OPTIONAL MATCH " ++ rel)
      (if field == "elementID" then
        "MATCH (n:" ++ label ++ ") WHERE elementId(n) = $" ++ field
      else
        "MATCH (n:" ++ label ++ " \x7b" ++ field ++ ": $" ++ field ++ "\x7d)")), ?_⟩
  unfold buildQuery buildQueryWith
  rw [hrels]
  simp [hpos]

/-- C10 witness: the statement at a concrete one-clause query with
limit five. -/
theorem c10_witness :
    ∃ pre, buildQuery appEnv "User" "userID" (.intV 7) userShape 1 5 3
      = some (pre ++ " LIMIT " ++ toString (5 : Int)
                ++ " RETURN n, collect(r) as relatedNodes",
              [("userID", .intV 7)]) :=
  c10_limit_before_return appEnv "User" "userID" (.intV 7) userShape 1 5 3
    ["(n)-[:OWNS]->(r:World)"] (by omega) (by rfl)
